import Mathlib

/-!
Verification development for the osmosis-externals-monitor gauge pipeline
(`src/index.js`): the poll–diff–classify core.  JavaScript objects keyed by
gauge id are modelled as association lists `List (String × Gauge)` (JS
integer-like key ordering is not modelled; no statement below depends on
iteration order).  JS `undefined` / caught exceptions surface as `Option`.
JS numbers that matter to the claims are modelled exactly: integer fields as
`Int`, the duration-seconds division as `ℚ` (exact for the magnitudes the
chain produces, where IEEE doubles are also exact).  External display
enrichment (pool asset symbols from `getPoolInfo`, the IBC asset-list
lookup inside `getCoinsInfo`) is a collaborator capability and is passed in
as a parameter; per the spec it never alters classification decisions.
-/

namespace OsmosisMonitor

/-- Reward coin record as it appears in a gauge's `coins` array. -/
structure Coin where
  denom : String
  amount : String
deriving DecidableEq, Repr

/-- The `distribute_to` target descriptor of a gauge. -/
structure DistributeTo where
  denom : String
  duration : String
deriving DecidableEq, Repr

/-- Gauge record (the fields `src/index.js` reads).  `id` is a string, as the
Osmosis REST API returns it; `num_epochs_paid_over` and `filled_epochs` are
the numeric values the JS arithmetic operates on. -/
structure Gauge where
  id : String
  is_perpetual : Bool
  start_time : String
  num_epochs_paid_over : Int
  filled_epochs : Int
  distribute_to : DistributeTo
  coins : List Coin
deriving DecidableEq, Repr

/-- A JS object keyed by gauge id, as an association list. -/
abbrev IndexedSnapshot := List (String × Gauge)

/-- Property read `obj[k]` on a snapshot object: `undefined` becomes `none`. -/
def jsLookup (snap : IndexedSnapshot) (k : String) : Option Gauge :=
  (snap.find? (fun p => p.1 == k)).map (fun p => p.2)

/-- Assignment `obj[k] = g` on a JS object: an existing key keeps its
position and gets the new value, a fresh key is appended (last wins). -/
def objInsert (snap : IndexedSnapshot) (k : String) (g : Gauge) : IndexedSnapshot :=
  if snap.any (fun p => p.1 == k) then
    snap.map (fun p => if p.1 == k then (k, g) else p)
  else
    snap ++ [(k, g)]

/-- The indexing step of the main IIFE (src/index.js:60-62):
`gauges.data.forEach((gauge) => { indexedGauges[gauge.id] = gauge; })`. -/
def index (gauges : List Gauge) : IndexedSnapshot :=
  gauges.foldl (fun snap g => objInsert snap g.id g) []

/-- Does `pat` occur as a prefix of `l` (character-wise)? -/
def startsWithL (pat l : List Char) : Bool :=
  match pat, l with
  | [], _ => true
  | _ :: _, [] => false
  | p :: ps, c :: cs => p == c && startsWithL ps cs

/-- Does `pat` occur as a contiguous run inside `l`? -/
def includesL (pat l : List Char) : Bool :=
  match l with
  | [] => startsWithL pat []
  | _ :: cs => startsWithL pat l || includesL pat cs

/-- JS `s.includes(pat)`. -/
def jsIncludes (s pat : String) : Bool :=
  includesL pat.toList s.toList

/-- First maximal run of decimal digits in a character list, the match of
the JS regex `/\d+/` (src/index.js:464). -/
def firstDigitRun (l : List Char) : Option (List Char) :=
  match l with
  | [] => none
  | c :: rest =>
    if c.isDigit then some ((c :: rest).takeWhile Char.isDigit) else firstDigitRun rest

/-- Numeric value of a list of decimal digit characters. -/
def digitsToNat (l : List Char) : Nat :=
  l.foldl (fun n c => 10 * n + (c.toNat - 48)) 0

/-- `getPoolIdFromGauge` (src/index.js:462-471):
`(match ? parseInt(match[0]) : NaN).toString()`.  `parseInt` on a digit run
followed by `toString` renders the run's numeric value in canonical decimal
(exact for values below 2^53, which covers every realistic pool id); absence
of digits yields the string `"NaN"`.  A thrown property access is caught and
also yields `"NaN"`; gauges here are well-typed so that path cannot occur. -/
def getPoolIdFromGauge (g : Gauge) : String :=
  match firstDigitRun g.distribute_to.denom.toList with
  | some run => toString (digitsToNat run)
  | none => "NaN"

/-- JS `Number(...)` coercion of the strings that reach the duration
arithmetic: the empty string coerces to `0`, a plain digit string to its
value (exact in IEEE doubles below 2^53, which covers on-chain durations),
anything else is `NaN`, modelled as `none` (`NaN` compares unequal to
everything, as `none` does against `some` below). -/
def jsNumberOfString (s : String) : Option Nat :=
  if s.toList = [] then some 0
  else if s.toList.all Char.isDigit then some (digitsToNat s.toList)
  else none

/-- Parsed seconds of `gauge.distribute_to.duration.slice(0, -1)`
(src/index.js:375 and 412-413), before the division by 86400. -/
def durationSeconds? (g : Gauge) : Option Nat :=
  jsNumberOfString (g.distribute_to.duration.dropRight 1)

/-- `gauge.distribute_to.duration.slice(0, -1) / 86400`
(src/index.js:375 and 412-413): drop the trailing unit character, coerce,
divide.  Exact rational value of the JS number (`none` for `NaN`). -/
def bondDurationDays? (g : Gauge) : Option ℚ :=
  (durationSeconds? g).map (fun (n : Nat) => (n : ℚ) / 86400)

/-- `gauge.num_epochs_paid_over - gauge.filled_epochs` (src/index.js:376, 414). -/
def remainingDays (g : Gauge) : Int :=
  g.num_epochs_paid_over - g.filled_epochs

/-- External asset-list / denom-trace lookup capability used for IBC coins:
denom to (symbol, optional exponent).  Display enrichment only. -/
abbrev IbcLookup := String → String × Option Nat

/-- Enriched coin record as pushed by `getCoinsInfo`. -/
structure CoinInfo where
  denom : String
  amount : String
  symbol : String
  exponent : Option Nat
deriving DecidableEq, Repr

/-- One iteration of the `getCoinsInfo` loop body (src/index.js:705-745):
the branch taken for a single reward coin, `none` when the coin falls
through every branch (nothing is pushed). -/
def coinInfoStep (σ : IbcLookup) (c : Coin) : Option CoinInfo :=
  if c.denom == "uosmo" then some ⟨c.denom, c.amount, "OSMO", some 6⟩
  else if c.denom == "uion" then some ⟨c.denom, c.amount, "ION", some 6⟩
  else if jsIncludes c.denom "ibc/" then some ⟨c.denom, c.amount, (σ c.denom).1, (σ c.denom).2⟩
  else if jsIncludes c.denom "gamm/pool" then some ⟨c.denom, c.amount, c.denom, none⟩
  else if jsIncludes c.denom "factory" then some ⟨c.denom, c.amount, c.denom, none⟩
  else none

/-- `getCoinsInfo` (src/index.js:703-747): per-coin branch on the denom;
a coin whose denom is not `uosmo`/`uion` and contains none of `ibc/`,
`gamm/pool`, `factory` falls through every branch and is pushed nowhere. -/
def getCoinsInfo (σ : IbcLookup) (coins : List Coin) : List CoinInfo :=
  coins.filterMap (coinInfoStep σ)

/-- Event type tags of notable events (src/index.js:382, 418, 434, 437). -/
inductive EventType where
  | NEAR_EXPIRATION
  | NEW_EXTERNAL_GAUGE
  | NEW_INTERNAL_GAUGE
  | NEW_SUPERFLUID_GAUGE
deriving DecidableEq, Repr

/-- Notable event record.  `poolAssetSymbols` (pure display text from the
external pools cache) and `startsInDays` (wall-clock dependent) are not
modelled; no claim mentions them.  The `bondDurationDays` display value is
carried as its parsed seconds (`durationSeconds`, the value divided by
86400 for display); no claim reads the field. -/
structure NotableEvent where
  type : EventType
  poolId : String
  coins : List CoinInfo
  durationSeconds : Option Nat
  remainingDays : Int
  gauge : Gauge
deriving DecidableEq, Repr

/-- Structural delta for one gauge as produced by `jsondiffpatch.diff` on a
pair of gauge objects: one presence flag per field (jsondiffpatch deltas are
sparse — a field appears iff it changed or was added, and every change
marker is a JS array, hence truthy).  For the `id` field the marker's string
coercion is kept, because `gauge_isNew` uses `delta.id` as an object key:
an added id `[v]` coerces to `"v"`, a changed id `[o, n]` to `"o,n"`. -/
structure GaugeDelta where
  idD : Option String
  is_perpetualD : Bool
  start_timeD : Bool
  num_epochs_paid_overD : Bool
  filled_epochsD : Bool
  distribute_toD : Bool
  coinsD : Bool
deriving DecidableEq, Repr

/-- Delta of a gauge added against the empty object: every field present. -/
def addedDelta (g : Gauge) : GaugeDelta :=
  ⟨some g.id, true, true, true, true, true, true⟩

/-- `jsondiffpatch.diff(oldGauge || {}, gauge)` (src/index.js:83-85):
`undefined` (here `none`) iff the two objects are deeply equal, otherwise a
sparse per-field delta. -/
def jsondiffGauge (old : Option Gauge) (g : Gauge) : Option GaugeDelta :=
  match old with
  | none => some (addedDelta g)
  | some o =>
    if o = g then none
    else some ⟨if o.id = g.id then none else some (o.id ++ "," ++ g.id),
      decide (o.is_perpetual ≠ g.is_perpetual),
      decide (o.start_time ≠ g.start_time),
      decide (o.num_epochs_paid_over ≠ g.num_epochs_paid_over),
      decide (o.filled_epochs ≠ g.filled_epochs),
      decide (o.distribute_to ≠ g.distribute_to),
      decide (o.coins ≠ g.coins)⟩

/-- The delta step of the main IIFE (src/index.js:75-89): visit every key of
the new snapshot, diff against the old entry (or the empty object when the
key is absent from the old snapshot), keep only non-empty deltas. -/
def computeDeltas (oldS newS : IndexedSnapshot) : List (String × GaugeDelta) :=
  newS.filterMap (fun p => (jsondiffGauge (jsLookup oldS p.1) p.2).map (fun d => (p.1, d)))

/-- The JS comparison `bondDurationDays == remainingDays` (src/index.js:377):
exact equality of `secs / 86400` against the integer `remainingDays`, false
when the parse produced `NaN`.  Since 86400 ≠ 0, the real-number equality
`secs / 86400 = rem` is decided as `secs = 86400 * rem`; the lemma
`bondEqDays_iff` below proves this agrees with the rational-division
formulation `bondDurationDays? g = some (remainingDays g)`. -/
def bondEqDays (g : Gauge) : Bool :=
  match durationSeconds? g with
  | some n => (n : Int) == 86400 * remainingDays g
  | none => false

/-- `gauge_isNearExpiration` (src/index.js:372-396).  The second JS argument
`delta.filled_epochs` is never read by the function body (it recomputes from
`gauge.filled_epochs`), so it is not a parameter here.  A `NaN` bond
duration (`none`) compares unequal, as in JS. -/
def gauge_isNearExpiration (σ : IbcLookup) (g : Gauge) : Option NotableEvent :=
  if g.is_perpetual then none
  else if bondEqDays g then
    some ⟨.NEAR_EXPIRATION, getPoolIdFromGauge g, getCoinsInfo σ g.coins,
      durationSeconds? g, remainingDays g, g⟩
  else none

/-- The superfluid first-occurrence scan inside `gauge_isNew`
(src/index.js:423-433): is there any entry under a different key whose
`distribute_to.denom` contains `"/<poolId>/superbonding"`? -/
def otherSuperbonding (snap : IndexedSnapshot) (selfId poolId : String) : Bool :=
  snap.any (fun p => p.1 != selfId && jsIncludes p.2.distribute_to.denom ("/" ++ poolId ++ "/superbonding"))

/-- `gauge_isNew` (src/index.js:398-460).  `delta?.id` truthiness is the
presence of `idD`; `indexedGauges[delta.id]` is `jsLookup` at the marker's
string coercion; an unresolvable gauge makes `gauge.coins` throw, which the
function's own catch turns into `undefined` (`none`). -/
def gauge_isNew (σ : IbcLookup) (d : GaugeDelta) (snap : IndexedSnapshot) : Option NotableEvent :=
  match d.idD with
  | none => none
  | some idv =>
    match jsLookup snap idv with
    | none => none
    | some g =>
      let poolId := getPoolIdFromGauge g
      let coins := getCoinsInfo σ g.coins
      let secs := durationSeconds? g
      let rem := remainingDays g
      if 0 ≤ rem then
        if jsIncludes g.distribute_to.denom "superbonding" then
          if otherSuperbonding snap g.id poolId then none
          else some ⟨.NEW_SUPERFLUID_GAUGE, poolId, coins, secs, rem, g⟩
        else if g.is_perpetual && (match g.coins.head? with
            | some c => c.denom == "uosmo"
            | none => false) then
          some ⟨.NEW_INTERNAL_GAUGE, poolId, coins, secs, rem, g⟩
        else if g.is_perpetual && g.coins.isEmpty then none
        else some ⟨.NEW_EXTERNAL_GAUGE, poolId, coins, secs, rem, g⟩
      else none

/-- One iteration of the `processDeltas` loop (src/index.js:344-364) for a
delta-map entry: skip the `_t` metadata key, run the near-expiration check
when the delta touched `filled_epochs` (an unresolvable gauge makes
`gauge.is_perpetual` throw inside `gauge_isNearExpiration`, whose catch
yields no event), then run the new-gauge check; push whatever is truthy. -/
def entryEvents (σ : IbcLookup) (snap : IndexedSnapshot) (p : String × GaugeDelta) :
    List NotableEvent :=
  if p.1 == "_t" then []
  else
    (if p.2.filled_epochsD then
      match jsLookup snap p.1 with
      | some g => gauge_isNearExpiration σ g
      | none => none
    else none).toList ++ (gauge_isNew σ p.2 snap).toList

/-- `processDeltas` (src/index.js:337-366): fold the per-entry events in
iteration order. -/
def processDeltas (σ : IbcLookup) (deltas : List (String × GaugeDelta))
    (snap : IndexedSnapshot) : List NotableEvent :=
  deltas.flatMap (entryEvents σ snap)

/-- One run of the diff/classify core of the main IIFE (src/index.js:56-112)
given the previous-snapshot load result and the freshly fetched gauge list:
`get_oldIndexedGauges` (src/index.js:275-287) returns the parsed snapshot,
or the empty object `{}` when the read or parse failed (`none` here); the
run then indexes, diffs and classifies. -/
def runPipeline (σ : IbcLookup) (prev : Option IndexedSnapshot) (gauges : List Gauge) :
    List NotableEvent :=
  let oldIndexed := prev.getD []
  let newIndexed := index gauges
  processDeltas σ (computeDeltas oldIndexed newIndexed) newIndexed

/-- Observable side-effect steps of a run, for the rotation bookkeeping. -/
inductive RunStep where
  | promote
  | skipPromote
  | saveGauges
  | saveIndexed
  | computeDeltasStep
  | classify
  | notify
deriving DecidableEq, Repr

/-- `save_oldIndexedGauges` (src/index.js:249-273): copies
`indexed-gauges.json` over `indexed-gauges-old.json`, unless
`config.BEHAVIOR.SKIP_SAVE_OLD_INDEXED_GAUGES` is set. -/
def save_oldIndexedGaugesTrace (skipOld : Bool) : List RunStep :=
  if skipOld then [.skipPromote] else [.promote]

/-- `fetchGauges` (src/index.js:155-221) on the happy path (rate limit ok,
fetch ok): it calls `save_oldIndexedGauges` (line 199) before writing the
new `gauges.json`. -/
def fetchGaugesTrace (skipOld : Bool) : List RunStep :=
  save_oldIndexedGaugesTrace skipOld ++ [.saveGauges]

/-- Step trace of a full successful run of the main IIFE (src/index.js:16-135):
fetch (which already rotates once), index and save, diff, classify, then
step 7 calls `save_oldIndexedGauges` again (line 116), then notify. -/
def mainTrace (skipOld : Bool) : List RunStep :=
  fetchGaugesTrace skipOld ++ [.saveIndexed, .computeDeltasStep, .classify]
    ++ save_oldIndexedGaugesTrace skipOld ++ [.notify]

/-- How many times a run actually copies current over previous. -/
def promotionCount (skipOld : Bool) : Nat :=
  ((mainTrace skipOld).filter (fun s => s == .promote)).length

/-- Denoms the coin-enrichment step keeps: the five branches of
`getCoinsInfo` (src/index.js:708-744). -/
def keptDenom (denom : String) : Bool :=
  denom == "uosmo" || denom == "uion" || jsIncludes denom "ibc/"
    || jsIncludes denom "gamm/pool" || jsIncludes denom "factory"

/- Concrete fixtures for witnesses and counterexamples. -/

/-- A lookup capability that resolves nothing (enrichment is irrelevant to
the classification facts below). -/
def trivialIbc : IbcLookup := fun _ => ("", none)

/-- A pre-existing perpetual pool-42 gauge present in both snapshots. -/
def gPlain : Gauge :=
  { id := "1", is_perpetual := true, start_time := "2023-01-01T00:00:00Z",
    num_epochs_paid_over := 1, filled_epochs := 1,
    distribute_to := { denom := "gamm/pool/42", duration := "86400s" },
    coins := [] }

/-- A superfluid-marker gauge for pool 317, new in the current run. -/
def gSF2 : Gauge :=
  { id := "2", is_perpetual := true, start_time := "2023-01-01T00:00:00Z",
    num_epochs_paid_over := 1, filled_epochs := 0,
    distribute_to := { denom := "cl/pool/317/superbonding", duration := "86400s" },
    coins := [] }

/-- A second superfluid-marker gauge for the same pool 317, also new. -/
def gSF3 : Gauge :=
  { id := "3", is_perpetual := true, start_time := "2023-01-01T00:00:00Z",
    num_epochs_paid_over := 1, filled_epochs := 0,
    distribute_to := { denom := "cl/pool/317/superbonding", duration := "86400s" },
    coins := [] }

/-- A fresh non-perpetual external gauge: 7 epochs, 7-day bonding, one
`uosmo` reward coin (the end-to-end gauge of spec §8). -/
def gExt : Gauge :=
  { id := "2", is_perpetual := false, start_time := "2023-01-01T00:00:00Z",
    num_epochs_paid_over := 7, filled_epochs := 0,
    distribute_to := { denom := "gamm/pool/1", duration := "604800s" },
    coins := [⟨"uosmo", "1000"⟩] }

/-- A perpetual gauge with internal (`uosmo`) incentives loaded. -/
def gInt : Gauge :=
  { id := "5", is_perpetual := true, start_time := "2023-01-01T00:00:00Z",
    num_epochs_paid_over := 1, filled_epochs := 0,
    distribute_to := { denom := "gamm/pool/9", duration := "86400s" },
    coins := [⟨"uosmo", "500"⟩] }

/-- A gauge whose pool-id digit run carries leading zeros. -/
def gZeros : Gauge :=
  { id := "4", is_perpetual := true, start_time := "2023-01-01T00:00:00Z",
    num_epochs_paid_over := 1, filled_epochs := 0,
    distribute_to := { denom := "cl/pool/007/superbonding", duration := "86400s" },
    coins := [] }

/-- Previous snapshot for the superfluid scenario. -/
def snapOldC1 : IndexedSnapshot := index [gPlain]

/-- Current snapshot for the superfluid scenario: the old gauge plus two new
superfluid gauges on pool 317. -/
def snapNewC1 : IndexedSnapshot := index [gPlain, gSF2, gSF3]

/- Theorems. -/

/-- Bridge between the executable equality test and the spec-level rational
formulation of `bondDurationDays == remainingDays`. -/
theorem bondEqDays_iff (g : Gauge) :
    bondEqDays g = true ↔ bondDurationDays? g = some ((remainingDays g : ℚ)) := by
  unfold bondEqDays bondDurationDays?
  cases h : durationSeconds? g with
  | none => simp
  | some n =>
    simp only [Option.map_some', Option.some.injEq, beq_iff_eq]
    rw [div_eq_iff (by norm_num : (86400 : ℚ) ≠ 0)]
    constructor
    · intro he
      have : ((n : Int) : ℚ) = ((86400 * remainingDays g : Int) : ℚ) := by exact_mod_cast he
      push_cast at this ⊢
      linarith [this]
    · intro he
      have : ((n : Int) : ℚ) = ((86400 * remainingDays g : Int) : ℚ) := by
        push_cast at he ⊢
        linarith [he]
      exact_mod_cast this

/-- Diffing against the empty previous object marks every key of the new
snapshot as fully added. -/
theorem computeDeltas_nil_left (s : IndexedSnapshot) :
    computeDeltas [] s = s.map (fun p => (p.1, addedDelta p.2)) := by
  induction s with
  | nil => rfl
  | cons p t ih =>
    simp only [computeDeltas] at ih ⊢
    rw [List.filterMap_cons]
    have hhead : jsondiffGauge (jsLookup [] p.1) p.2 = some (addedDelta p.2) := rfl
    rw [hhead]
    simp only [Option.map_some', List.map_cons]
    rw [ih]

/-- C6 counterexample: on a full successful run without the skip override,
the rotation primitive `save_oldIndexedGauges` executes its copy twice (once
inside `fetchGauges`, src/index.js:199, once at step 7, src/index.js:116),
refuting "executed exactly once — never twice". -/
theorem c6_counterexample : promotionCount false = 2 ∧ promotionCount false ≠ 1 := by
  decide

/-- C6 amended: in a full successful run the promotion primitive executes
exactly twice — once before the new gauges file is written and once at the
end of the run — and zero times under the
`SKIP_SAVE_OLD_INDEXED_GAUGES` override. -/
theorem c6_promotion_twice :
    promotionCount false = 2 ∧ promotionCount true = 0
      ∧ mainTrace false = [.promote, .saveGauges, .saveIndexed, .computeDeltasStep,
          .classify, .promote, .notify] := by
  decide

/-- C2 counterexample: a run whose previous-snapshot load fails (`none`,
i.e. read/parse failure or missing baseline, which `get_oldIndexedGauges`
turns into the empty object) with one fetched external gauge produces two
notable events (a `NEAR_EXPIRATION` and a `NEW_EXTERNAL_GAUGE`), not zero:
the code diffs against the empty baseline instead of skipping the diff. -/
theorem c2_counterexample :
    runPipeline trivialIbc none [gExt] ≠ [] ∧ (runPipeline trivialIbc none [gExt]).length = 2 := by
  decide

/-- C2 amended: when loading the previous snapshot fails, the run treats the
previous generation as the empty snapshot and still diffs: every gauge of
the current snapshot surfaces as an added-key delta and classification runs
on all of them (so the run does not in general terminate with zero events;
promotion still occurs, see the run trace). -/
theorem c2_bootstrap_diffs_against_empty (σ : IbcLookup) (gauges : List Gauge) :
    runPipeline σ none gauges
      = processDeltas σ ((index gauges).map (fun p => (p.1, addedDelta p.2))) (index gauges) := by
  show processDeltas σ (computeDeltas [] (index gauges)) (index gauges) = _
  rw [computeDeltas_nil_left]

/-- C10: `getCoinsInfo` keeps exactly the reward coins whose denom is
`uosmo`, `uion`, or contains `ibc/`, `gamm/pool` or `factory` — in input
order and with denom/amount preserved — and silently drops every other
coin, so the enriched list never exceeds the input and has no placeholder
entries. -/
theorem c10_coins_filter (σ : IbcLookup) (coins : List Coin) :
    (getCoinsInfo σ coins).map (fun ci => (ci.denom, ci.amount))
        = (coins.filter (fun c => keptDenom c.denom)).map (fun c => (c.denom, c.amount))
      ∧ (getCoinsInfo σ coins).length ≤ coins.length := by
  have hstep : ∀ c : Coin,
      (coinInfoStep σ c).map (fun ci => (ci.denom, ci.amount))
        = if keptDenom c.denom then some (c.denom, c.amount) else none := by
    intro c
    unfold coinInfoStep keptDenom
    cases h1 : (c.denom == "uosmo") <;> cases h2 : (c.denom == "uion") <;>
      cases h3 : jsIncludes c.denom "ibc/" <;> cases h4 : jsIncludes c.denom "gamm/pool" <;>
      cases h5 : jsIncludes c.denom "factory" <;> simp [h1, h2, h3, h4, h5]
  constructor
  · induction coins with
    | nil => rfl
    | cons c t ih =>
      have hc := hstep c
      simp only [getCoinsInfo, List.filterMap_cons, List.filter_cons] at ih ⊢
      cases hk : keptDenom c.denom
      · rw [hk] at hc
        simp only [Bool.false_eq_true, if_false] at hc
        have h0 : coinInfoStep σ c = none := by
          cases ho : coinInfoStep σ c
          · rfl
          · rw [ho] at hc
            simp at hc
        rw [h0]
        simpa using ih
      · rw [hk] at hc
        simp only [if_true] at hc
        rcases ho : coinInfoStep σ c with _ | ci
        · rw [ho] at hc
          simp at hc
        · rw [ho] at hc
          simp only [Option.map_some', Option.some.injEq] at hc
          simp [hc, ih]
  · exact List.length_filterMap_le _ _

/-- A string with no digit characters has no digit run. -/
theorem firstDigitRun_eq_none (l : List Char) (h : ∀ c ∈ l, c.isDigit = false) :
    firstDigitRun l = none := by
  induction l with
  | nil => rfl
  | cons c t ih =>
    have hc := h c (List.mem_cons_self c t)
    simp only [firstDigitRun, hc, Bool.false_eq_true, if_false]
    exact ih (fun x hx => h x (List.mem_cons_of_mem c hx))

/-- The scanner returns exactly the first maximal digit run: given a
decomposition into a digit-free prefix, a non-empty all-digit run, and a
suffix that does not start with a digit, it returns that run. -/
theorem firstDigitRun_decomp (pre run post : List Char)
    (hpre : ∀ c ∈ pre, c.isDigit = false) (hrun0 : run ≠ [])
    (hrun : ∀ c ∈ run, c.isDigit = true)
    (hpost : ∀ c, post.head? = some c → c.isDigit = false) :
    firstDigitRun (pre ++ run ++ post) = some run := by
  induction pre with
  | nil =>
    cases run with
    | nil => exact absurd rfl hrun0
    | cons r rs =>
      have hr : r.isDigit = true := hrun r (List.mem_cons_self r rs)
      have hall : (r :: rs).takeWhile Char.isDigit = r :: rs := by
        rw [List.takeWhile_eq_self_iff]
        exact hrun
      have hnil : post.takeWhile Char.isDigit = [] := by
        cases hp : post with
        | nil => rfl
        | cons q qs =>
          have hq : q.isDigit = false := hpost q (by rw [hp]; rfl)
          simp [List.takeWhile_cons, hq]
      simp only [List.nil_append, List.cons_append, firstDigitRun, hr, if_true]
      show some (List.takeWhile Char.isDigit ((r :: rs) ++ post)) = some (r :: rs)
      rw [List.takeWhile_append]
      rw [hall]
      simp [hnil]
  | cons a pre' ih =>
    have ha : a.isDigit = false := hpre a (List.mem_cons_self a pre')
    simp only [List.cons_append, firstDigitRun, ha, Bool.false_eq_true, if_false]
    exact ih (fun x hx => hpre x (List.mem_cons_of_mem a hx))

/-- C9 counterexample: for the denom `"cl/pool/007/superbonding"` the first
maximal digit run is `"007"`, but `getPoolIdFromGauge` returns `"7"`
(`parseInt(...).toString()` strips the leading zeros), so extraction does
not return the digit run itself as a string. -/
theorem c9_counterexample :
    firstDigitRun gZeros.distribute_to.denom.toList = some ['0', '0', '7']
      ∧ getPoolIdFromGauge gZeros ≠ "007" ∧ getPoolIdFromGauge gZeros = "7" := by
  decide

/-- C9 amended: pool-id extraction finds the first maximal run of decimal
digits of `distribute_to.denom` and returns the canonical decimal rendering
of its numeric value (leading zeros stripped — equal to the run itself
whenever the run has no leading zero); a denom without digits yields the
`"NaN"` sentinel without throwing. -/
theorem c9_pool_id_extraction (g : Gauge) :
    ((∀ c ∈ g.distribute_to.denom.toList, c.isDigit = false) → getPoolIdFromGauge g = "NaN")
      ∧ (∀ pre run post : List Char, g.distribute_to.denom.toList = pre ++ run ++ post →
          (∀ c ∈ pre, c.isDigit = false) → run ≠ [] → (∀ c ∈ run, c.isDigit = true) →
          (∀ c, post.head? = some c → c.isDigit = false) →
          getPoolIdFromGauge g = toString (digitsToNat run)) := by
  constructor
  · intro h
    unfold getPoolIdFromGauge
    rw [firstDigitRun_eq_none _ h]
  · intro pre run post hdec hpre hrun0 hrun hpost
    unfold getPoolIdFromGauge
    rw [hdec, firstDigitRun_decomp pre run post hpre hrun0 hrun hpost]

/-- C9 witness: on the spec's own example denom `"cl/pool/317/superbonding"`
the amended characterization yields pool id `"317"`. -/
theorem c9_witness : getPoolIdFromGauge gSF2 = "317" := by
  have h := (c9_pool_id_extraction gSF2).2 "cl/pool/".toList ['3', '1', '7']
    "/superbonding".toList (by decide) (by decide) (by decide) (by decide) (by decide)
  exact h.trans (by decide)

/-- Any event produced by the new-gauge check carries one of the three
new-gauge types. -/
theorem gauge_isNew_types (σ : IbcLookup) (d : GaugeDelta) (snap : IndexedSnapshot)
    (e : NotableEvent) (h : gauge_isNew σ d snap = some e) :
    e.type = .NEW_SUPERFLUID_GAUGE ∨ e.type = .NEW_INTERNAL_GAUGE
      ∨ e.type = .NEW_EXTERNAL_GAUGE := by
  unfold gauge_isNew at h
  split at h
  · exact Option.noConfusion h
  · split at h
    · exact Option.noConfusion h
    · dsimp only at h
      split at h
      · split at h
        · split at h
          · exact Option.noConfusion h
          · cases h
            left
            rfl
        · split at h
          · cases h
            right
            left
            rfl
          · split at h
            · exact Option.noConfusion h
            · cases h
              right
              right
              rfl
      · exact Option.noConfusion h

/-- Reduction of `gauge_isNew` once the delta's `id` marker and the gauge it
resolves to are known. -/
theorem gauge_isNew_resolved (σ : IbcLookup) (d : GaugeDelta) (snap : IndexedSnapshot)
    (j : String) (g : Gauge) (hid : d.idD = some j) (hg : jsLookup snap j = some g) :
    gauge_isNew σ d snap =
      (if 0 ≤ remainingDays g then
        if jsIncludes g.distribute_to.denom "superbonding" then
          if otherSuperbonding snap g.id (getPoolIdFromGauge g) then none
          else some ⟨.NEW_SUPERFLUID_GAUGE, getPoolIdFromGauge g, getCoinsInfo σ g.coins,
            durationSeconds? g, remainingDays g, g⟩
        else if g.is_perpetual && (match g.coins.head? with
            | some c => c.denom == "uosmo"
            | none => false) then
          some ⟨.NEW_INTERNAL_GAUGE, getPoolIdFromGauge g, getCoinsInfo σ g.coins,
            durationSeconds? g, remainingDays g, g⟩
        else if g.is_perpetual && g.coins.isEmpty then none
        else some ⟨.NEW_EXTERNAL_GAUGE, getPoolIdFromGauge g, getCoinsInfo σ g.coins,
          durationSeconds? g, remainingDays g, g⟩
      else none) := by
  unfold gauge_isNew
  rw [hid]
  dsimp only
  rw [hg]

/-- A delta without an `id` marker never yields a new-gauge event. -/
theorem gauge_isNew_no_id (σ : IbcLookup) (d : GaugeDelta) (snap : IndexedSnapshot)
    (hid : d.idD = none) : gauge_isNew σ d snap = none := by
  unfold gauge_isNew
  rw [hid]

/-- An `id` marker that resolves to no gauge yields no new-gauge event (the
thrown property access is caught). -/
theorem gauge_isNew_unresolved (σ : IbcLookup) (d : GaugeDelta) (snap : IndexedSnapshot)
    (j : String) (hid : d.idD = some j) (hg : jsLookup snap j = none) :
    gauge_isNew σ d snap = none := by
  unfold gauge_isNew
  rw [hid]
  dsimp only
  rw [hg]

/-- C3: for a delta entry of the classification pass whose key resolves to a
gauge, a `NEAR_EXPIRATION` event is emitted iff the delta includes the
`filled_epochs` field, the gauge is not perpetual, and the parsed bond
duration in days (seconds prefix of `distribute_to.duration` with the unit
character stripped, divided by 86400) equals `remainingDays`
(`num_epochs_paid_over - filled_epochs`) exactly; perpetual gauges and
strict inequality in either direction emit nothing. -/
theorem c3_near_expiration_iff (σ : IbcLookup) (snap : IndexedSnapshot) (idx : String)
    (d : GaugeDelta) (g : Gauge) (hg : jsLookup snap idx = some g) (ht : idx ≠ "_t") :
    (entryEvents σ snap (idx, d)).any (fun e => e.type == .NEAR_EXPIRATION) = true
      ↔ (d.filled_epochsD = true ∧ g.is_perpetual = false
          ∧ bondDurationDays? g = some ((remainingDays g : ℚ))) := by
  have hbt : (idx == "_t") = false := by
    simp [ht]
  have hB : ((gauge_isNew σ d snap).toList.any (fun e => e.type == .NEAR_EXPIRATION)) = false := by
    cases hn : gauge_isNew σ d snap with
    | none => rfl
    | some e =>
      rcases gauge_isNew_types σ d snap e hn with h | h | h <;>
        simp [Option.toList_some, List.any_cons, List.any_nil, h]
  unfold entryEvents
  dsimp only
  rw [hbt]
  simp only [Bool.false_eq_true, if_false, List.any_append, hB, Bool.or_false]
  rw [hg]
  cases hfe : d.filled_epochsD with
  | false =>
    simp
  | true =>
    simp only [if_true]
    unfold gauge_isNearExpiration
    cases hperp : g.is_perpetual with
    | true =>
      simp
    | false =>
      simp only [Bool.false_eq_true, if_false]
      cases hbe : bondEqDays g with
      | true =>
        have hq := (bondEqDays_iff g).mp hbe
        simp [hq]
      | false =>
        have hq : ¬ (bondDurationDays? g = some ((remainingDays g : ℚ))) := by
          intro hcon
          rw [(bondEqDays_iff g).mpr hcon] at hbe
          exact Bool.noConfusion hbe
        simp [hq]

/-- C3 witness: the end-to-end external gauge of spec §8 (7 epochs, 604800s
duration, `filled_epochs` present in its added delta) fires the
near-expiration check. -/
theorem c3_witness :
    (entryEvents trivialIbc (index [gExt]) ("2", addedDelta gExt)).any
      (fun e => e.type == .NEAR_EXPIRATION) = true :=
  (c3_near_expiration_iff trivialIbc (index [gExt]) "2" (addedDelta gExt) gExt
    (by decide) (by decide)).mpr ⟨rfl, rfl, (bondEqDays_iff gExt).mp (by decide)⟩

/-- C4: for a delta whose `id` marker resolves to a gauge in the new
snapshot: a negative `remainingDays` yields no event; with the superfluid
marker present the outcome is a `NEW_SUPERFLUID_GAUGE` event or suppression;
without it the outcome is exactly `NEW_INTERNAL_GAUGE` when the gauge is
perpetual with first reward coin `uosmo`, suppression when perpetual with no
coins, and `NEW_EXTERNAL_GAUGE` otherwise — never more than one event or
type per gauge. -/
theorem c4_new_gauge_classification (σ : IbcLookup) (snap : IndexedSnapshot)
    (d : GaugeDelta) (j : String) (g : Gauge)
    (hid : d.idD = some j) (hg : jsLookup snap j = some g) :
    (remainingDays g < 0 → gauge_isNew σ d snap = none)
      ∧ (0 ≤ remainingDays g → jsIncludes g.distribute_to.denom "superbonding" = true →
          (gauge_isNew σ d snap).map NotableEvent.type = some .NEW_SUPERFLUID_GAUGE
            ∨ gauge_isNew σ d snap = none)
      ∧ (0 ≤ remainingDays g → jsIncludes g.distribute_to.denom "superbonding" = false →
          (gauge_isNew σ d snap).map NotableEvent.type
            = (if g.is_perpetual = true ∧ g.coins.head?.map Coin.denom = some "uosmo"
               then some .NEW_INTERNAL_GAUGE
               else if g.is_perpetual = true ∧ g.coins = [] then none
               else some .NEW_EXTERNAL_GAUGE)) := by
  have hred := gauge_isNew_resolved σ d snap j g hid hg
  refine ⟨?_, ?_, ?_⟩
  · intro hlt
    rw [hred, if_neg (not_le.mpr hlt)]
  · intro hle hm
    rw [hred, if_pos hle, if_pos hm]
    cases ho : otherSuperbonding snap g.id (getPoolIdFromGauge g) with
    | true =>
      right
      simp
    | false =>
      left
      simp
  · intro hle hm
    rw [hred, if_pos hle, if_neg (by rw [hm]; exact Bool.noConfusion)]
    cases hperp : g.is_perpetual with
    | false =>
      simp
    | true =>
      cases hcs : g.coins with
      | nil =>
        simp
      | cons c cs =>
        cases hcd : (c.denom == "uosmo") with
        | true =>
          have : c.denom = "uosmo" := by
            exact beq_iff_eq.mp hcd
          simp [List.head?_cons, this]
        | false =>
          have : ¬ (c.denom = "uosmo") := by
            intro hcon
            rw [hcon] at hcd
            simp at hcd
          simp [List.head?_cons, hcd, this]

/-- C4 witness: a perpetual gauge whose first reward coin is `uosmo` and
whose denom has no superfluid marker classifies as `NEW_INTERNAL_GAUGE`. -/
theorem c4_witness :
    (gauge_isNew trivialIbc (addedDelta gInt) (index [gInt])).map NotableEvent.type
      = some .NEW_INTERNAL_GAUGE := by
  have h := (c4_new_gauge_classification trivialIbc (index [gInt]) (addedDelta gInt)
    "5" gInt (by decide) (by decide)).2.2 (by decide) (by decide)
  rw [h]
  decide

/-- The delta used in the C8 witness: an added-shape delta whose `id`
marker points at a key that resolves to no gauge. -/
def dBad : GaugeDelta := ⟨some "9", true, true, true, true, true, true⟩

/-- C8: a delta entry whose key and `id` marker both fail to resolve to a
gauge in the new snapshot (the per-gauge failure mode: the thrown property
access is caught inside `gauge_isNearExpiration` / `gauge_isNew`)
contributes no event, and the batch around it is processed unchanged —
classification of the other deltas proceeds and their events are still
produced. -/
theorem c8_per_gauge_failure_isolated (σ : IbcLookup) (snap : IndexedSnapshot)
    (ds1 ds2 : List (String × GaugeDelta)) (idx : String) (d : GaugeDelta)
    (h1 : jsLookup snap idx = none)
    (h2 : ∀ j, d.idD = some j → jsLookup snap j = none) :
    entryEvents σ snap (idx, d) = []
      ∧ processDeltas σ (ds1 ++ (idx, d) :: ds2) snap
          = processDeltas σ ds1 snap ++ processDeltas σ ds2 snap := by
  have hnew : gauge_isNew σ d snap = none := by
    cases hd : d.idD with
    | none => exact gauge_isNew_no_id σ d snap hd
    | some j => exact gauge_isNew_unresolved σ d snap j hd (h2 j hd)
  have hA : entryEvents σ snap (idx, d) = [] := by
    unfold entryEvents
    dsimp only
    cases hbt : (idx == "_t") with
    | true => simp
    | false =>
      simp only [Bool.false_eq_true, if_false]
      rw [hnew]
      cases hfe : d.filled_epochsD with
      | false => rfl
      | true =>
        simp only [if_true]
        rw [h1]
        rfl
  refine ⟨hA, ?_⟩
  unfold processDeltas
  rw [List.flatMap_append, List.flatMap_cons, hA]
  simp

/-- C8 witness: with one resolvable delta and one unresolvable delta in the
same batch, the bad entry contributes nothing and the rest is unchanged. -/
theorem c8_witness :
    processDeltas trivialIbc ([("5", addedDelta gInt)] ++ ("9", dBad) :: []) (index [gInt])
      = processDeltas trivialIbc [("5", addedDelta gInt)] (index [gInt])
        ++ processDeltas trivialIbc [] (index [gInt]) :=
  (c8_per_gauge_failure_isolated trivialIbc (index [gInt]) [("5", addedDelta gInt)] []
    "9" dBad (by decide) (fun j hj => by
      have hj' : some "9" = some j := hj
      cases hj'
      decide)).2

/-- In a snapshot whose keys are unique, every entry is found by its own
key. -/
theorem jsLookup_self (n : IndexedSnapshot) (hn : (n.map Prod.fst).Nodup) :
    ∀ p ∈ n, jsLookup n p.1 = some p.2 := by
  induction n with
  | nil => intro p hp; cases hp
  | cons q t ih =>
    intro p hp
    rw [List.map_cons, List.nodup_cons] at hn
    rcases List.mem_cons.mp hp with rfl | hpt
    · unfold jsLookup
      rw [List.find?_cons]
      simp
    · have hne : (q.1 == p.1) = false := by
        have : q.1 ≠ p.1 := by
          intro hcon
          exact hn.1 (hcon ▸ List.mem_map_of_mem Prod.fst hpt)
        simp [this]
      unfold jsLookup
      rw [List.find?_cons, hne]
      exact ih hn.2 p hpt

/-- The keys the diff step emits are the new-snapshot keys whose structural
delta is non-empty. -/
theorem computeDeltas_keys (o n : IndexedSnapshot) :
    (computeDeltas o n).map Prod.fst
      = (n.filter (fun p => (jsondiffGauge (jsLookup o p.1) p.2).isSome)).map Prod.fst := by
  induction n with
  | nil => rfl
  | cons p t ih =>
    simp only [computeDeltas, List.filterMap_cons, List.filter_cons] at ih ⊢
    cases hd : jsondiffGauge (jsLookup o p.1) p.2 with
    | none => simpa using ih
    | some dlt =>
      simp only [Option.map_some', Option.isSome_some, if_true, List.map_cons]
      rw [ih]

/-- Diffing a unique-keyed snapshot against itself yields no deltas. -/
theorem computeDeltas_self (n : IndexedSnapshot) (hn : (n.map Prod.fst).Nodup) :
    computeDeltas n n = [] := by
  unfold computeDeltas
  rw [List.filterMap_eq_nil_iff]
  intro p hp
  rw [jsLookup_self n hn p hp]
  unfold jsondiffGauge
  simp

/-- C5: the diff result's keys are exactly the new-snapshot keys with a
non-empty structural delta against the old entry (or the empty object for
an added key); a key absent from the new snapshot (a removed gauge) never
appears; and diffing a snapshot against itself is empty. -/
theorem c5_diff_keys (o n : IndexedSnapshot) (hn : (n.map Prod.fst).Nodup) :
    ((computeDeltas o n).map Prod.fst
        = (n.filter (fun p => (jsondiffGauge (jsLookup o p.1) p.2).isSome)).map Prod.fst)
      ∧ (∀ i, i ∉ n.map Prod.fst → i ∉ (computeDeltas o n).map Prod.fst)
      ∧ computeDeltas n n = [] := by
  refine ⟨computeDeltas_keys o n, ?_, computeDeltas_self n hn⟩
  intro i hi hmem
  apply hi
  rw [computeDeltas_keys o n] at hmem
  have hsub : ((n.filter (fun p => (jsondiffGauge (jsLookup o p.1) p.2).isSome)).map Prod.fst).Sublist
      (n.map Prod.fst) := List.Sublist.map Prod.fst (List.filter_sublist n)
  exact hsub.mem hmem

/-- C5 witness: the superfluid-scenario snapshot diffed against itself is
empty, and a removed key does not resurface. -/
theorem c5_witness : computeDeltas snapNewC1 snapNewC1 = [] :=
  (c5_diff_keys snapNewC1 snapNewC1 (by decide)).2.2

/-- `find?` returns the head of the filtered list. -/
theorem find?_eq_head?_filter {α : Type} (p : α → Bool) (l : List α) :
    l.find? p = (l.filter p).head? := by
  induction l with
  | nil => rfl
  | cons a t ih =>
    rw [List.find?_cons, List.filter_cons]
    cases hp : p a with
    | true => simp
    | false =>
      simp only [Bool.false_eq_true, if_false]
      exact ih

/-- Effect on lookups of overwriting the value stored under key `k` in
place (the existing-key branch of `objInsert`). -/
theorem jsLookup_keyUpdate (snap : IndexedSnapshot) (k : String) (g : Gauge) (i : String) :
    jsLookup (snap.map (fun p => if p.1 == k then (k, g) else p)) i
      = if i = k then (snap.find? (fun p => p.1 == k)).map (fun _ => g)
        else jsLookup snap i := by
  induction snap with
  | nil =>
    by_cases hik : i = k <;> simp [jsLookup, hik]
  | cons q t ih =>
    by_cases hik : i = k
    · subst hik
      cases hq : (q.1 == i) with
      | true =>
        unfold jsLookup
        simp only [List.map_cons, hq, if_true, List.find?_cons]
        have h2 : ((i, g).1 == i) = true := by simp
        rw [h2]
        rfl
      | false =>
        unfold jsLookup at ih ⊢
        simp only [List.map_cons, List.find?_cons, hq, Bool.false_eq_true, if_false,
          eq_self_iff_true, if_true] at ih ⊢
        exact ih
    · cases hq : (q.1 == k) with
      | true =>
        have hqk : q.1 = k := beq_iff_eq.mp hq
        have hki : (k == i) = false := by
          have hne : k ≠ i := fun hcon => hik hcon.symm
          simp [hne]
        have hqi : (q.1 == i) = false := by
          rw [hqk]
          exact hki
        unfold jsLookup at ih ⊢
        simp only [List.map_cons, List.find?_cons, hq, if_true, hki, hqi,
          Bool.false_eq_true, if_false] at ih ⊢
        rw [if_neg hik] at ih
        rw [if_neg hik]
        exact ih
      | false =>
        unfold jsLookup at ih ⊢
        simp only [List.map_cons, List.find?_cons, hq, Bool.false_eq_true, if_false] at ih ⊢
        cases hqi : (q.1 == i) with
        | true =>
          rw [if_neg hik]
        | false =>
          rw [if_neg hik] at ih
          rw [if_neg hik]
          exact ih

/-- Lookup after a JS object assignment: the assigned key now maps to the
new value, every other key is untouched. -/
theorem jsLookup_objInsert (snap : IndexedSnapshot) (k : String) (g : Gauge) (i : String) :
    jsLookup (objInsert snap k g) i = if i = k then some g else jsLookup snap i := by
  unfold objInsert
  cases hany : snap.any (fun p => p.1 == k) with
  | true =>
    simp only [if_true]
    rw [jsLookup_keyUpdate]
    by_cases hik : i = k
    · obtain ⟨q, hq, hqk⟩ := List.any_eq_true.mp hany
      have hfind : ∃ r, snap.find? (fun p => p.1 == k) = some r := by
        cases hf : snap.find? (fun p => p.1 == k) with
        | some r => exact ⟨r, rfl⟩
        | none =>
          have := List.find?_eq_none.mp hf q hq
          exact absurd hqk this
      obtain ⟨r, hr⟩ := hfind
      simp [hik, hr]
    · simp [hik]
  | false =>
    simp only [Bool.false_eq_true, if_false]
    unfold jsLookup
    rw [List.find?_append]
    by_cases hik : i = k
    · subst hik
      have hnone : snap.find? (fun p => p.1 == i) = none := by
        rw [List.find?_eq_none]
        intro q hq hcon
        have : snap.any (fun p => p.1 == i) = true := List.any_eq_true.mpr ⟨q, hq, hcon⟩
        rw [this] at hany
        exact Bool.noConfusion hany
      rw [hnone]
      simp [jsLookup]
    · have hki : ((k, g).1 == i) = false := by
        have hne : k ≠ i := fun hcon => hik hcon.symm
        simp [hne]
      rw [show (List.find? (fun p => p.1 == i) [(k, g)]) = none by
        rw [List.find?_cons, hki]
        rfl]
      rw [Option.or_none, if_neg hik]

/-- Lookup through the indexing fold: the last gauge in the input list
carrying the requested id wins, and an untouched key falls through to the
initial object. -/
theorem jsLookup_index_foldl (l : List Gauge) :
    ∀ (snap : IndexedSnapshot) (i : String),
      jsLookup (l.foldl (fun s g => objInsert s g.id g) snap) i
        = (l.reverse.find? (fun g => g.id == i)).or (jsLookup snap i) := by
  induction l with
  | nil =>
    intro snap i
    simp
  | cons a t ih =>
    intro snap i
    rw [List.foldl_cons, ih (objInsert snap a.id a) i, List.reverse_cons, List.find?_append,
      Option.or_assoc, jsLookup_objInsert]
    congr 1
    rw [List.find?_cons]
    by_cases hik : i = a.id
    · have hb : (a.id == i) = true := by simp [hik]
      rw [hb, if_pos hik]
      rfl
    · have hb : (a.id == i) = false := by
        have hne : a.id ≠ i := fun hcon => hik hcon.symm
        simp [hne]
      rw [hb, if_neg hik]
      rfl

/-- With unique ids, at most one gauge of the list matches a given id. -/
theorem filter_keyed_len_le (l : List Gauge) (hu : (l.map Gauge.id).Nodup) (i : String) :
    (l.filter (fun g => g.id == i)).length ≤ 1 := by
  rcases hf : l.filter (fun g => g.id == i) with _ | ⟨g1, _ | ⟨g2, t⟩⟩
  · rw [hf]
    simp
  · rw [hf]
    simp
  · exfalso
    have hsub : (l.filter (fun g => g.id == i)).Sublist l := List.filter_sublist l
    have hnd : ((l.filter (fun g => g.id == i)).map Gauge.id).Nodup :=
      List.Nodup.sublist (List.Sublist.map Gauge.id hsub) hu
    rw [hf] at hnd
    have h1 : g1 ∈ l.filter (fun g => g.id == i) := by
      rw [hf]
      exact List.mem_cons_self _ _
    have h2 : g2 ∈ l.filter (fun g => g.id == i) := by
      rw [hf]
      exact List.mem_cons_of_mem _ (List.mem_cons_self _ _)
    have e1 : g1.id = i := beq_iff_eq.mp (List.mem_filter.mp h1).2
    have e2 : g2.id = i := beq_iff_eq.mp (List.mem_filter.mp h2).2
    simp only [List.map_cons, List.nodup_cons, List.mem_cons] at hnd
    exact hnd.1 (Or.inl (e1.trans e2.symm))

/-- C7: indexing builds the id-keyed mapping by single iteration with
later duplicate ids overwriting earlier ones (the looked-up entry is the
last matching input gauge, without error), and for inputs with unique ids
the resulting mapping is invariant under permutation of the input list. -/
theorem c7_index_order_independent (l l' : List Gauge) (hp : l.Perm l')
    (hu : (l.map Gauge.id).Nodup) :
    (∀ i, jsLookup (index l) i = jsLookup (index l') i)
      ∧ (∀ (m : List Gauge) (i : String),
          jsLookup (index m) i = m.reverse.find? (fun g => g.id == i)) := by
  have hlast : ∀ (m : List Gauge) (i : String),
      jsLookup (index m) i = m.reverse.find? (fun g => g.id == i) := by
    intro m i
    unfold index
    rw [jsLookup_index_foldl]
    rw [show jsLookup [] i = none from rfl, Option.or_none]
  refine ⟨?_, hlast⟩
  intro i
  rw [hlast, hlast, find?_eq_head?_filter, find?_eq_head?_filter,
    List.filter_reverse, List.filter_reverse]
  have hperm := hp.filter (fun g => g.id == i)
  have hlen := filter_keyed_len_le l hu i
  rcases hfl : l.filter (fun g => g.id == i) with _ | ⟨a, rest⟩
  · rw [hfl] at hperm
    rw [hfl, (hperm.symm).eq_nil]
  · rw [hfl] at hperm hlen
    have hrest : rest = [] := by
      simp only [List.length_cons] at hlen
      have : rest.length = 0 := by omega
      exact List.length_eq_zero.mp this
    subst hrest
    have hsing : l'.filter (fun g => g.id == i) = [a] := List.perm_singleton.mp hperm.symm
    rw [hfl, hsing]

/-- C7 witness: swapping two distinct-id gauges leaves the indexed mapping
unchanged at every key (shown at key `"2"`). -/
theorem c7_witness : jsLookup (index [gInt, gExt]) "2" = jsLookup (index [gExt, gInt]) "2" :=
  (c7_index_order_independent [gInt, gExt] [gExt, gInt] (by decide) (by decide)).1 "2"

/-- The near-expiration check only ever emits `NEAR_EXPIRATION` events. -/
theorem gauge_isNearExpiration_type (σ : IbcLookup) (g : Gauge) (e : NotableEvent)
    (h : gauge_isNearExpiration σ g = some e) : e.type = .NEAR_EXPIRATION := by
  unfold gauge_isNearExpiration at h
  split at h
  · exact Option.noConfusion h
  · split at h
    · cases h
      rfl
    · exact Option.noConfusion h

/-- Inversion for a superfluid classification: the classified gauge passed
the first-occurrence scan, i.e. no other key of the snapshot carried the
`"/<poolId>/superbonding"` marker. -/
theorem gauge_isNew_superfluid_scan (σ : IbcLookup) (d : GaugeDelta)
    (snap : IndexedSnapshot) (e : NotableEvent)
    (h : gauge_isNew σ d snap = some e) (ht : e.type = .NEW_SUPERFLUID_GAUGE) :
    ∃ g : Gauge, e.poolId = getPoolIdFromGauge g
      ∧ otherSuperbonding snap g.id (getPoolIdFromGauge g) = false := by
  cases hd : d.idD with
  | none =>
    rw [gauge_isNew_no_id σ d snap hd] at h
    exact Option.noConfusion h
  | some j =>
    cases hj : jsLookup snap j with
    | none =>
      rw [gauge_isNew_unresolved σ d snap j hd hj] at h
      exact Option.noConfusion h
    | some g =>
      rw [gauge_isNew_resolved σ d snap j g hd hj] at h
      split at h
      · split at h
        · split at h
          · exact Option.noConfusion h
          next hos =>
            cases h
            exact ⟨g, rfl, by simpa using hos⟩
        · split at h
          · cases h
            exact EventType.noConfusion ht
          · split at h
            · exact Option.noConfusion h
            · cases h
              exact EventType.noConfusion ht
      · exact Option.noConfusion h

/-- C1 counterexample: previous snapshot holds only the plain gauge; the
current snapshot adds two superfluid-marker gauges for pool 317, both of
which appear as added-key deltas — yet classification produces zero
`NEW_SUPERFLUID_GAUGE` events (each gauge's scan finds the other and
suppresses itself), not exactly one. -/
theorem c1_counterexample :
    (computeDeltas snapOldC1 snapNewC1).map Prod.fst = ["2", "3"]
      ∧ (processDeltas trivialIbc (computeDeltas snapOldC1 snapNewC1) snapNewC1).countP
          (fun e => e.type == .NEW_SUPERFLUID_GAUGE) = 0 := by
  decide

/-- C1 amended: whenever the new snapshot holds two entries under distinct
keys whose denoms both carry the superfluid marker for pool `p`, a
classification pass over any delta mapping yields zero
`NEW_SUPERFLUID_GAUGE` events for `p`: the first-occurrence scan makes the
two gauges suppress each other. -/
theorem c1_superfluid_mutual_suppression (σ : IbcLookup) (snap : IndexedSnapshot)
    (p k₂ k₃ : String) (g₂ g₃ : Gauge)
    (h2 : (k₂, g₂) ∈ snap) (h3 : (k₃, g₃) ∈ snap) (hne : k₂ ≠ k₃)
    (hm2 : jsIncludes g₂.distribute_to.denom ("/" ++ p ++ "/superbonding") = true)
    (hm3 : jsIncludes g₃.distribute_to.denom ("/" ++ p ++ "/superbonding") = true)
    (ds : List (String × GaugeDelta)) :
    (processDeltas σ ds snap).countP
      (fun e => e.type == .NEW_SUPERFLUID_GAUGE && e.poolId == p) = 0 := by
  rw [List.countP_eq_zero]
  intro e he hpred
  rw [Bool.and_eq_true, beq_iff_eq, beq_iff_eq] at hpred
  obtain ⟨htype, hpool⟩ := hpred
  rw [processDeltas, List.mem_flatMap] at he
  obtain ⟨q, hq, hent⟩ := he
  unfold entryEvents at hent
  by_cases hbt : (q.1 == "_t") = true
  · rw [if_pos hbt] at hent
    exact absurd hent (List.not_mem_nil e)
  · rw [if_neg hbt, List.mem_append] at hent
    rcases hent with hnear | hnew
    · cases hfe : q.2.filled_epochsD with
      | false =>
        rw [hfe] at hnear
        exact absurd (Option.mem_toList.mp hnear) (by simp)
      | true =>
        rw [hfe] at hnear
        simp only [if_true] at hnear
        cases hl : jsLookup snap q.1 with
        | none =>
          rw [hl] at hnear
          exact absurd (Option.mem_toList.mp hnear) (by simp)
        | some g =>
          rw [hl] at hnear
          have hN := gauge_isNearExpiration_type σ g e (Option.mem_def.mp (Option.mem_toList.mp hnear))
          rw [hN] at htype
          exact EventType.noConfusion htype
    · have hnew' : gauge_isNew σ q.2 snap = some e :=
        Option.mem_def.mp (Option.mem_toList.mp hnew)
      obtain ⟨g, hep, hos⟩ := gauge_isNew_superfluid_scan σ q.2 snap e hnew' htype
      have hgp : getPoolIdFromGauge g = p := by
        rw [← hep, hpool]
      have htrue : otherSuperbonding snap g.id (getPoolIdFromGauge g) = true := by
        unfold otherSuperbonding
        rw [List.any_eq_true, hgp]
        by_cases hk : g.id = k₂
        · refine ⟨(k₃, g₃), h3, ?_⟩
          rw [Bool.and_eq_true]
          refine ⟨bne_iff_ne.mpr ?_, hm3⟩
          rw [hk]
          exact fun hcon => hne hcon.symm
        · refine ⟨(k₂, g₂), h2, ?_⟩
          rw [Bool.and_eq_true]
          exact ⟨bne_iff_ne.mpr (fun hcon => hk hcon.symm), hm2⟩
      rw [htrue] at hos
      exact Bool.noConfusion hos

/-- C1 witness: the two pool-317 superfluid gauges of the counterexample
snapshot, fed through the amended theorem with their own added deltas,
yield zero superfluid events for pool 317. -/
theorem c1_witness :
    (processDeltas trivialIbc [("2", addedDelta gSF2), ("3", addedDelta gSF3)] snapNewC1).countP
      (fun e => e.type == .NEW_SUPERFLUID_GAUGE && e.poolId == "317") = 0 :=
  c1_superfluid_mutual_suppression trivialIbc snapNewC1 "317" "2" "3" gSF2 gSF3
    (by decide) (by decide) (by decide) (by decide) (by decide)
    [("2", addedDelta gSF2), ("3", addedDelta gSF3)]

end OsmosisMonitor
